import Mathlib

/-
  Verification of git-credential-keepassxc against its design spec.

  The Rust sources embedded here are src/main.rs and src/config.rs.
  External crates (aes_gcm, base64, serde_json, yubico_manager) and the
  repository's message/transport modules are modelled as explicit
  parameters (oracles), so every control-flow decision of the embedded
  functions comes from the Rust source itself.
-/

namespace GCK

/-- Identity record, from src/config.rs struct Database (lines 295-302). -/
structure Database where
  id : String
  key : String
  pkey : String
  group : String
  group_uuid : String
deriving DecidableEq, Repr

/-- Caller allow-list entry, from src/config.rs struct Caller (lines 323-330). -/
structure Caller where
  path : String
  uid : Option Nat
  gid : Option Nat
deriving DecidableEq, Repr

/-- Ciphertext-plus-nonce pair, from src/config.rs struct EncryptedProfile
(lines 285-293); bytes are modelled as lists of naturals. -/
structure EncryptedProfile where
  data : String
  nonce : List Nat
deriving DecidableEq, Repr

/-- Encryption profile, from src/config.rs enum Encryption (lines 332-342).
The response field is the RefCell-cached derived key; it carries the
serde skip attribute in the source. -/
inductive Encryption where
  | challengeResponse (serial : Option Nat) (slot : Nat) (challenge : String)
      (response : Option (List Nat))
deriving DecidableEq, Repr

/-- The serialized (persisted) form of an Encryption profile: the serde
derive on the source enum skips the response field, so only serial, slot
and challenge reach the store. -/
structure EncryptionSerialized where
  serial : Option Nat
  slot : Nat
  challenge : String
deriving DecidableEq, Repr

/-- Serialization of an Encryption profile as produced by the serde derive
in src/config.rs (lines 332-342): the response field has serde(skip) and
the serial field is emitted only when present; the persisted record
carries serial, slot and challenge only. -/
def Encryption.serialize : Encryption → EncryptionSerialized
  | .challengeResponse s sl ch _ => ⟨s, sl, ch⟩

/-- Configuration document, from src/config.rs struct Config (lines 34-46). -/
structure Config where
  databases : List Database
  encrypted_databases : List EncryptedProfile
  callers : List Caller
  encrypted_callers : List EncryptedProfile
  encryption : List Encryption
deriving DecidableEq, Repr

/-- From src/config.rs line 26: YUBIKEY_RESPONSE_LENGTH. -/
def YUBIKEY_RESPONSE_LENGTH : Nat := 20

/-- From src/config.rs line 28: AES_KEY_LENGTH. -/
def AES_KEY_LENGTH : Nat := 32

/-- The key assembly of src/config.rs lines 249-251: a vector of
AES_KEY_LENGTH zero bytes whose first YUBIKEY_RESPONSE_LENGTH entries are
spliced out and replaced by the HMAC result (Vec::splice semantics: the
replaced range is substituted by the whole iterator). -/
def spliceKey (hmacResult : List Nat) : List Nat :=
  hmacResult ++ (List.replicate AES_KEY_LENGTH 0).drop YUBIKEY_RESPONSE_LENGTH

/-- A YubiKey device as found on the bus (yubico_manager crate),
modelled abstractly. -/
structure YubikeyDevice where
  vendorId : Nat
  productId : Nat
deriving DecidableEq, Repr

/-- Oracle for the yubico_manager crate used by src/config.rs
get_encryption_key: finding the device may fail, and the interactive
HMAC-SHA1 challenge-response (challenge string, slot) may fail.
Serial-number reading in the source only feeds log lines and is omitted. -/
structure Hardware where
  findYubikey : Except String YubikeyDevice
  challengeResponseHmac : String → Nat → Except String (List Nat)

/-- Oracles for the aes_gcm, base64 and serde_json crates used by
src/config.rs: AEAD encrypt/decrypt under a key and nonce (decrypt may
fail to authenticate), base64 encode/decode, and JSON (de)serialization
of Database and Caller records. Plaintext byte strings are conflated
with String. -/
structure Crypto where
  b64encode : String → String
  b64decode : String → Option String
  aeadEncrypt : List Nat → List Nat → String → Option String
  aeadDecrypt : List Nat → List Nat → String → Option String
  dbToJson : Database → String
  dbFromJson : String → Option Database
  callerToJson : Caller → String
  callerFromJson : String → Option Caller

/-- From src/config.rs Config::get_encryption_key (lines 177-255), the
encryption+yubikey build: error when no profile is configured; otherwise
use the first profile; return the RefCell-cached response when present;
otherwise find the YubiKey, run challenge-response HMAC on the profile's
fixed challenge (slot 1 when slot == 1, slot 2 otherwise), zero-pad the
response to the AES key width, cache it and return it. The RefCell
interior mutation is modelled by returning the updated Config, and the
returned Bool records whether hardware interaction took place. -/
def Config.get_encryption_key (hw : Hardware) (self : Config) :
    Except String (List Nat × Config × Bool) :=
  match self.encryption with
  | [] => .error "No encryption profile found"
  | Encryption.challengeResponse serial slot challenge resp :: rest =>
    match resp with
    | some k => .ok (k, self, false)
    | none =>
      match hw.findYubikey with
      | .error e => .error e
      | .ok _device =>
        match hw.challengeResponseHmac challenge (if slot == 1 then 1 else 2) with
        | .error e => .error e
        | .ok hmacResult =>
          .ok (spliceKey hmacResult,
            { self with encryption :=
                (Encryption.challengeResponse serial slot challenge
                  (some (spliceKey hmacResult)) :: rest) },
            true)

/-- From src/config.rs Config::base64_decrypt (lines 145-154): obtain the
encryption key, base64-decode the data, AEAD-decrypt under the profile
key and the stored nonce. The String::from_utf8 step is the identity
here since plaintext bytes are conflated with String. -/
def Config.base64_decrypt (hw : Hardware) (c : Crypto) (self : Config)
    (data : String) (nonce : List Nat) : Except String (String × Config) :=
  match self.get_encryption_key hw with
  | .error e => .error e
  | .ok (key, cfg, _) =>
    match c.b64decode data with
    | none => .error "base64 decode error"
    | some raw =>
      match c.aeadDecrypt key nonce raw with
      | none => .error "Failed to decrypt database key"
      | some s => .ok (s, cfg)

/-- From src/config.rs Config::base64_encrypt (lines 165-175): the random
nonce (aes_nonce) is passed in explicitly; obtain the encryption key,
AEAD-encrypt, base64-encode the ciphertext. -/
def Config.base64_encrypt (hw : Hardware) (c : Crypto) (self : Config)
    (data : String) (nonce : List Nat) :
    Except String ((String × List Nat) × Config) :=
  match self.get_encryption_key hw with
  | .error e => .error e
  | .ok (key, cfg, _) =>
    match c.aeadEncrypt key nonce data with
    | none => .error "Failed to encrypt database key"
    | some ct => .ok ((c.b64encode ct, nonce), cfg)

/-- From src/config.rs Config::add_database (lines 91-100): encrypted
entries are serialized to JSON, encrypted and pushed onto
encrypted_databases; plaintext entries are pushed onto databases. -/
def Config.add_database (hw : Hardware) (c : Crypto) (self : Config)
    (database : Database) (encrypted : Bool) (nonce : List Nat) :
    Except String Config :=
  if encrypted then
    match self.base64_encrypt hw c (c.dbToJson database) nonce with
    | .error e => .error e
    | .ok ((data, n), cfg) =>
      .ok { cfg with encrypted_databases := cfg.encrypted_databases ++ [⟨data, n⟩] }
  else
    .ok { self with databases := self.databases ++ [database] }

/-- The loop of src/config.rs Config::get_databases (lines 68-76): fold
over encrypted_databases, decrypting and JSON-parsing each entry and
appending it to the accumulator, threading the Config because the key
cache may be populated by the first decryption. Any failure aborts the
whole loop via the question-mark operator. -/
def Config.get_databases_go (hw : Hardware) (c : Crypto) :
    Config → List EncryptedProfile → List Database →
    Except String (List Database × Config)
  | cfg, [], acc => .ok (acc, cfg)
  | cfg, ep :: rest, acc =>
    match cfg.base64_decrypt hw c ep.data ep.nonce with
    | .error e => .error e
    | .ok (json, cfg2) =>
      match c.dbFromJson json with
      | none => .error "json parse error"
      | some db => Config.get_databases_go hw c cfg2 rest (acc ++ [db])

/-- From src/config.rs Config::get_databases (lines 68-76): start from a
clone of the plaintext databases and append every decrypted entry. -/
def Config.get_databases (hw : Hardware) (c : Crypto) (self : Config) :
    Except String (List Database) :=
  (Config.get_databases_go hw c self self.encrypted_databases self.databases).map Prod.fst

/-- The loop of src/config.rs Config::get_callers (lines 102-110),
mirror image of the databases loop. -/
def Config.get_callers_go (hw : Hardware) (c : Crypto) :
    Config → List EncryptedProfile → List Caller →
    Except String (List Caller × Config)
  | cfg, [], acc => .ok (acc, cfg)
  | cfg, ep :: rest, acc =>
    match cfg.base64_decrypt hw c ep.data ep.nonce with
    | .error e => .error e
    | .ok (json, cfg2) =>
      match c.callerFromJson json with
      | none => .error "json parse error"
      | some caller => Config.get_callers_go hw c cfg2 rest (acc ++ [caller])

/-- From src/config.rs Config::get_callers (lines 102-110). -/
def Config.get_callers (hw : Hardware) (c : Crypto) (self : Config) :
    Except String (List Caller) :=
  (Config.get_callers_go hw c self self.encrypted_callers self.callers).map Prod.fst

/-- From src/config.rs Config::count_databases (lines 78-80). -/
def Config.count_databases (self : Config) : Nat :=
  self.databases.length + self.encrypted_databases.length

/-- Modelled from the spec: the test-associate request of the missing
keepassxc messages module; it carries an identity's remote-assigned id
and its permanent public key (spec section 4.3, re-authenticate). In
src/main.rs line 79 it is built as TestAssociateRequest::new(db.id,
db.pkey). -/
structure TestAssociateRequest where
  id : String
  key : String
deriving DecidableEq, Repr

/-- Modelled from the spec: the test-associate response of the missing
keepassxc messages module; the response envelope carries an optional
boolean success indicator (spec section 6). -/
structure TestAssociateResponse where
  success : Option Bool
deriving DecidableEq, Repr

/-- The filter closure inside src/main.rs associated_databases (lines
78-92): the test-associate request carrying this database's id and pkey
was sent successfully and the response's success flag, unwrapped with a
false default, is true; a send error counts as false. -/
def tasoPass (send : TestAssociateRequest → Option TestAssociateResponse)
    (db : Database) : Bool :=
  match send ⟨db.id, db.pkey⟩ with
  | some resp => resp.success.getD false
  | none => false

/-- From src/main.rs associated_databases (lines 74-106): filter the
configured databases through the test-associate closure; an empty
surviving set is an error, otherwise the survivors are returned. The
transport is the send oracle (None models a send error). -/
def associated_databases (send : TestAssociateRequest → Option TestAssociateResponse)
    (config : Config) : Except String (List Database) :=
  let databases := config.databases.filter (tasoPass send)
  if databases.isEmpty then
    .error "No valid database associations found in configuration file"
  else
    .ok databases

/-- Modelled from the spec: one login entry returned by the remote
(spec sections 4.4 and 6): a login, a password, the entry's identifier,
and an optional expired marker (KeePassBoolean in the source). -/
structure LoginEntry where
  login : String
  password : String
  uuid : String
  expired : Option Bool
deriving DecidableEq, Repr

/-- Modelled from the spec: the get-logins request of the missing
keepassxc messages module; it carries the URL and the full set of
(id, public key) pairs (spec section 4.4). In src/main.rs line 165 it is
built as GetLoginsRequest::new(url, None, None, id_key_pairs). -/
structure GetLoginsRequest where
  url : String
  keys : List (String × String)
deriving DecidableEq, Repr

/-- Modelled from the spec: the get-logins response of the missing
keepassxc messages module, carrying the returned entries. -/
structure GetLoginsResponse where
  entries : List LoginEntry
deriving DecidableEq, Repr

/-- The filter predicate of src/main.rs line 171: keep an entry when its
expired marker is absent, or present and false. -/
def keepEntry (e : LoginEntry) : Bool :=
  match e.expired with
  | none => true
  | some b => !b

/-- From src/main.rs get_logins_for (lines 157-174): authenticate the
stored identities, build the (id, pkey) pair list from the survivors,
send one get-logins request carrying the URL and those pairs, and filter
the returned entries to drop the expired ones. The transport is the
sendGl oracle. -/
def get_logins_for (sendTaso : TestAssociateRequest → Option TestAssociateResponse)
    (sendGl : GetLoginsRequest → Except String GetLoginsResponse)
    (config : Config) (url : String) : Except String (List LoginEntry) :=
  match associated_databases sendTaso config with
  | .error e => .error e
  | .ok databases =>
    let id_key_pairs := databases.map (fun d => (d.id, d.pkey))
    match sendGl ⟨url, id_key_pairs⟩ with
    | .error e => .error e
    | .ok resp => .ok (resp.entries.filter keepEntry)

/-- From src/main.rs get_logins (lines 183-199): an empty entry list is
the "No matching logins found" error, otherwise the first entry is
selected (multiple matches only produce a warning). -/
def selectLogin (login_entries : List LoginEntry) : Except String LoginEntry :=
  match login_entries with
  | [] => .error "No matching logins found"
  | e :: _ => .ok e

/-- Modelled from the spec: the set-login request of the missing
keepassxc messages module (spec sections 4.5 and 6): url, submit url,
database id, login, password, optional group name and group uuid, and
the optional uuid of an existing entry (present for an in-place update,
absent for creation). Field order follows the SetLoginRequest::new call
sites in src/main.rs lines 244-253 and 266-275. -/
structure SetLoginRequest where
  url : String
  submit_url : String
  db_id : String
  login : String
  password : String
  group : Option String
  group_uuid : Option String
  uuid : Option String
deriving DecidableEq, Repr

/-- Outcome of the request-construction phase of src/main.rs store_login
(lines 225-276): a set-login request, or one of the two panics
(first().unwrap() on an empty entry or database list), or the explicit
unimplemented abort for updating with multiple configured databases. -/
inductive StoreDecision where
  | req : SetLoginRequest → StoreDecision
  | panicEmptyEntries : StoreDecision
  | panicNoDatabase : StoreDecision
  | unimplementedMultiDb : StoreDecision
deriving DecidableEq, Repr

/-- From src/main.rs store_login (lines 223-276): branch on the result of
the prior-login lookup. On Ok, take the first entry (panic when empty),
abort with unimplemented when more than one database is configured, and
build an update request referencing the entry's uuid against the first
database. On Err, build a creation request (uuid None) against the first
database (panic when none is configured; more than one only warns). -/
def buildSetLoginRequest (config : Config) (url username password : String)
    (login_entries : Except String (List LoginEntry)) : StoreDecision :=
  match login_entries with
  | .ok entries =>
    match entries with
    | [] => .panicEmptyEntries
    | login_entry :: _ =>
      if config.databases.length > 1 then
        .unimplementedMultiDb
      else
        match config.databases with
        | [] => .panicNoDatabase
        | database :: _ =>
          .req ⟨url, url, database.id, username, password,
                some database.group, some database.group_uuid,
                some login_entry.uuid⟩
  | .error _ =>
    match config.databases with
    | [] => .panicNoDatabase
    | database :: _ =>
      .req ⟨url, url, database.id, username, password,
            some database.group, some database.group_uuid, none⟩

/-- Modelled from the spec: the set-login response of the missing
keepassxc messages module, carrying the optional success indicator and
the optional error and errorCode strings (spec section 6). -/
structure SetLoginResponse where
  success : Option Bool
  error : Option String
  error_code : Option String
deriving DecidableEq, Repr

/-- From src/main.rs store_login (lines 277-298): the response check.
With no success flag at all the request failed. With a success flag, the
store succeeds only when the flag is true and the error string is
absent, empty, or exactly "success"; anything else is a failure. -/
def storeLoginResponseCheck (resp : SetLoginResponse) : Except String Unit :=
  match resp.success with
  | some s =>
    if s && (resp.error.isNone || resp.error == some "" || resp.error == some "success")
    then .ok ()
    else .error "Failed to store login"
  | none => .error "Set login request failed"

/-- Modelled from the spec: the parsed credential request of the missing
git module (spec section 6): optional protocol, host, path, url,
username and password fields from the newline-delimited key=value
input. -/
structure GitCredentialMessage where
  url : Option String
  protocol : Option String
  host : Option String
  path : Option String
  username : Option String
  password : Option String
deriving DecidableEq, Repr

/-- From src/main.rs read_git_request (lines 54-70): use the url field
when present; otherwise both protocol and host are required (error when
either is missing) and the url is formatted as protocol://host/path
with the path defaulting to the empty string. -/
def resolveUrl (git_req : GitCredentialMessage) : Except String String :=
  match git_req.url with
  | some u => .ok u
  | none =>
    if git_req.protocol.isNone || git_req.host.isNone then
      .error "Protocol and host are both required when URL is not provided"
    else
      .ok ((git_req.protocol.getD "") ++ "://" ++ (git_req.host.getD "") ++ "/" ++
        (git_req.path.getD ""))

/-- Pure view of one iteration of the get_databases loop once the
encryption key k is fixed: base64-decode, AEAD-decrypt, JSON-parse;
None when any step fails. -/
def decryptProfileDb (c : Crypto) (k : List Nat) (ep : EncryptedProfile) : Option Database :=
  match c.b64decode ep.data with
  | none => none
  | some raw =>
    match c.aeadDecrypt k ep.nonce raw with
    | none => none
    | some json => c.dbFromJson json

/-- Pure view of the whole get_databases loop under a fixed key: all
entries must decrypt, in order; None as soon as one fails. -/
def decryptListDb (c : Crypto) (k : List Nat) : List EncryptedProfile → Option (List Database)
  | [] => some []
  | ep :: rest =>
    match decryptProfileDb c k ep with
    | none => none
    | some db => (decryptListDb c k rest).map (fun l => db :: l)

/-- Pure view of one iteration of the get_callers loop under a fixed
key. -/
def decryptProfileCaller (c : Crypto) (k : List Nat) (ep : EncryptedProfile) : Option Caller :=
  match c.b64decode ep.data with
  | none => none
  | some raw =>
    match c.aeadDecrypt k ep.nonce raw with
    | none => none
    | some json => c.callerFromJson json

/-- Pure view of the whole get_callers loop under a fixed key. -/
def decryptListCaller (c : Crypto) (k : List Nat) : List EncryptedProfile → Option (List Caller)
  | [] => some []
  | ep :: rest =>
    match decryptProfileCaller c k ep with
    | none => none
    | some caller => (decryptListCaller c k rest).map (fun l => caller :: l)

/-- Concrete identity record used by the evaluation instances below. -/
def wDb : Database := ⟨"db1", "key1", "pkey1", "git", "guid1"⟩

/-- Second concrete identity record. -/
def wDb2 : Database := ⟨"db2", "key2", "pkey2", "git", "guid2"⟩

/-- Third concrete identity record. -/
def wDb3 : Database := ⟨"db3", "key3", "pkey3", "git", "guid3"⟩

/-- Concrete caller record. -/
def wCaller : Caller := ⟨"/usr/bin/git", some 1000, none⟩

/-- Concrete 32-byte AES key. -/
def wKey : List Nat := List.replicate 32 0

/-- Concrete encryption profile whose key cache is already populated. -/
def wProfileKeyed : Encryption := .challengeResponse (some 5) 2 "abcd" (some wKey)

/-- Concrete hardware oracle with no reachable YubiKey. -/
def wHardwareDead : Hardware :=
  ⟨.error "no yubikey", fun _ _ => .error "no yubikey"⟩

/-- Concrete hardware oracle that finds a YubiKey and answers every
challenge with twenty 7-bytes. -/
def wHardwareLive : Hardware :=
  ⟨.ok ⟨4176, 1031⟩, fun _ _ => .ok (List.replicate 20 7)⟩

/-- Concrete crypto oracle where every primitive is the identity-like
map and JSON parsing always yields the fixed records. -/
def wCryptoId : Crypto :=
  ⟨fun s => s, fun s => some s, fun _ _ d => some d, fun _ _ d => some d,
   fun _ => "dbjson", fun _ => some wDb, fun _ => "callerjson", fun _ => some wCaller⟩

/-- Concrete crypto oracle whose AEAD decryption always fails to
authenticate. -/
def wCryptoBad : Crypto :=
  { wCryptoId with aeadDecrypt := fun _ _ _ => none }

/-- Concrete store with no identities and a keyed profile. -/
def wCfgKeyed : Config := ⟨[], [], [], [], [wProfileKeyed]⟩

/-- Concrete store with one encrypted database entry and one encrypted
caller entry under a keyed profile. -/
def wCfgEnc : Config := ⟨[], [⟨"ct", [1, 2]⟩], [], [⟨"ct2", [3]⟩], [wProfileKeyed]⟩

/-- Concrete store with an unkeyed (cache-empty) profile. -/
def wCfgUncached : Config :=
  ⟨[], [], [], [], [.challengeResponse (some 5) 2 "abcd" none]⟩

/-- Concrete store holding one plaintext identity. -/
def wCfg1 : Config := ⟨[wDb], [], [], [], []⟩

/-- Concrete store holding two plaintext identities. -/
def wCfg2 : Config := ⟨[wDb, wDb2], [], [], [], []⟩

/-- Concrete store holding three plaintext identities. -/
def wCfg3 : Config := ⟨[wDb, wDb2, wDb3], [], [], [], []⟩

/-- Concrete test-associate oracle: the request for db2 errors out, the
others are confirmed. -/
def wSend3 : TestAssociateRequest → Option TestAssociateResponse :=
  fun r => if r.id == "db2" then none else some ⟨some true⟩

/-- Concrete test-associate oracle confirming everything. -/
def wSendAll : TestAssociateRequest → Option TestAssociateResponse :=
  fun _ => some ⟨some true⟩

/-- Concrete expired login entry. -/
def wEntryExp : LoginEntry := ⟨"alice", "pw1", "uuid-exp", some true⟩

/-- Concrete non-expired login entry (no marker at all). -/
def wEntryOk : LoginEntry := ⟨"bob", "pw2", "uuid-ok", none⟩

/-- Concrete get-logins oracle returning one expired and one live
entry. -/
def wSendGl : GetLoginsRequest → Except String GetLoginsResponse :=
  fun _ => .ok ⟨[wEntryExp, wEntryOk]⟩

/-- A configuration whose first encryption profile already caches the
key k yields exactly that key, unchanged configuration, and no hardware
interaction. -/
theorem getKey_keyed (hw : Hardware) (cfg : Config) (s : Option Nat) (sl : Nat)
    (ch : String) (k : List Nat) (rest : List Encryption)
    (h : cfg.encryption = Encryption.challengeResponse s sl ch (some k) :: rest) :
    cfg.get_encryption_key hw = .ok (k, cfg, false) := by
  unfold Config.get_encryption_key
  rw [h]

/-- Whenever get_encryption_key succeeds, the returned configuration has
the key cached in its first profile and agrees with the input on every
other field. -/
theorem getKey_spec (hw : Hardware) (cfg cfg2 : Config) (k : List Nat) (i : Bool)
    (h : cfg.get_encryption_key hw = .ok (k, cfg2, i)) :
    (∃ s sl ch rest, cfg2.encryption = Encryption.challengeResponse s sl ch (some k) :: rest) ∧
      cfg2.databases = cfg.databases ∧
      cfg2.encrypted_databases = cfg.encrypted_databases ∧
      cfg2.callers = cfg.callers ∧
      cfg2.encrypted_callers = cfg.encrypted_callers := by
  unfold Config.get_encryption_key at h
  split at h
  · simp at h
  next serial slot challenge resp rest heq =>
    cases resp with
    | some kc =>
      simp only [Except.ok.injEq, Prod.mk.injEq] at h
      obtain ⟨hk, hcfg, _⟩ := h
      subst hk
      rw [← hcfg]
      exact ⟨⟨serial, slot, challenge, rest, heq⟩, rfl, rfl, rfl, rfl⟩
    | none =>
      cases hfy : hw.findYubikey with
      | error e => rw [hfy] at h; simp at h
      | ok dev =>
        rw [hfy] at h
        cases hcr : hw.challengeResponseHmac challenge (if slot == 1 then 1 else 2) with
        | error e => rw [hcr] at h; simp at h
        | ok hm =>
          rw [hcr] at h
          simp only [Except.ok.injEq, Prod.mk.injEq] at h
          obtain ⟨hk, hcfg, _⟩ := h
          subst hk
          rw [← hcfg]
          exact ⟨⟨serial, slot, challenge, rest, rfl⟩, rfl, rfl, rfl, rfl⟩

/-- Once the key is known to be obtainable, base64_decrypt reduces to
the pure base64-decode / AEAD-decrypt pipeline under that key, ending in
the key-cached configuration. -/
theorem decrypt_after_key (hw : Hardware) (c : Crypto) (cfg cfg2 : Config)
    (k : List Nat) (i : Bool) (d : String) (n : List Nat)
    (h : cfg.get_encryption_key hw = .ok (k, cfg2, i)) :
    cfg.base64_decrypt hw c d n =
      match c.b64decode d with
      | none => .error "base64 decode error"
      | some raw =>
        match c.aeadDecrypt k n raw with
        | none => .error "Failed to decrypt database key"
        | some s => .ok (s, cfg2) := by
  unfold Config.base64_decrypt
  rw [h]

/-- On a key-cached configuration, the get_databases loop computes
exactly the pure decryption of the list, appended to the accumulator,
and leaves the configuration unchanged. -/
theorem go_db_keyed_ok (hw : Hardware) (c : Crypto) (cfg : Config)
    (s : Option Nat) (sl : Nat) (ch : String) (k : List Nat) (rest : List Encryption)
    (hkeyed : cfg.encryption = Encryption.challengeResponse s sl ch (some k) :: rest)
    (l : List EncryptedProfile) :
    ∀ (out acc : List Database), decryptListDb c k l = some out →
      Config.get_databases_go hw c cfg l acc = .ok (acc ++ out, cfg) := by
  induction l with
  | nil =>
    intro out acc hdec
    simp only [decryptListDb, Option.some.injEq] at hdec
    subst hdec
    simp [Config.get_databases_go]
  | cons ep rest' ih =>
    intro out acc hdec
    simp only [decryptListDb] at hdec
    cases hp : decryptProfileDb c k ep with
    | none => rw [hp] at hdec; simp at hdec
    | some db =>
      rw [hp] at hdec
      cases hr : decryptListDb c k rest' with
      | none => rw [hr] at hdec; simp at hdec
      | some out2 =>
        rw [hr] at hdec
        simp at hdec
        have hkey := getKey_keyed hw cfg s sl ch k rest hkeyed
        have hdecr := decrypt_after_key hw c cfg cfg k false ep.data ep.nonce hkey
        unfold decryptProfileDb at hp
        cases hb : c.b64decode ep.data with
        | none => simp [hb] at hp
        | some raw =>
          simp only [hb] at hp
          cases ha : c.aeadDecrypt k ep.nonce raw with
          | none => simp [ha] at hp
          | some json =>
            simp only [ha] at hp
            simp only [Config.get_databases_go, hdecr, hb, ha, hp]
            rw [ih out2 (acc ++ [db]) hr, ← hdec]
            simp

/-- On a key-cached configuration, if the pure decryption of the list
fails, the get_databases loop returns an error. -/
theorem go_db_keyed_err (hw : Hardware) (c : Crypto) (cfg : Config)
    (s : Option Nat) (sl : Nat) (ch : String) (k : List Nat) (rest : List Encryption)
    (hkeyed : cfg.encryption = Encryption.challengeResponse s sl ch (some k) :: rest)
    (l : List EncryptedProfile) :
    ∀ (acc : List Database), decryptListDb c k l = none →
      ∃ e, Config.get_databases_go hw c cfg l acc = .error e := by
  induction l with
  | nil => intro acc hdec; simp [decryptListDb] at hdec
  | cons ep rest' ih =>
    intro acc hdec
    have hkey := getKey_keyed hw cfg s sl ch k rest hkeyed
    have hdecr := decrypt_after_key hw c cfg cfg k false ep.data ep.nonce hkey
    cases hp : decryptProfileDb c k ep with
    | none =>
      unfold decryptProfileDb at hp
      cases hb : c.b64decode ep.data with
      | none =>
        refine ⟨"base64 decode error", ?_⟩
        simp only [Config.get_databases_go, hdecr, hb]
      | some raw =>
        simp only [hb] at hp
        cases ha : c.aeadDecrypt k ep.nonce raw with
        | none =>
          refine ⟨"Failed to decrypt database key", ?_⟩
          simp only [Config.get_databases_go, hdecr, hb, ha]
        | some json =>
          simp only [ha] at hp
          refine ⟨"json parse error", ?_⟩
          simp only [Config.get_databases_go, hdecr, hb, ha, hp]
    | some db =>
      simp only [decryptListDb, hp] at hdec
      cases hr : decryptListDb c k rest' with
      | some out2 => rw [hr] at hdec; simp at hdec
      | none =>
        obtain ⟨e, he⟩ := ih (acc ++ [db]) hr
        refine ⟨e, ?_⟩
        unfold decryptProfileDb at hp
        cases hb : c.b64decode ep.data with
        | none => simp [hb] at hp
        | some raw =>
          simp only [hb] at hp
          cases ha : c.aeadDecrypt k ep.nonce raw with
          | none => simp [ha] at hp
          | some json =>
            simp only [ha] at hp
            simp only [Config.get_databases_go, hdecr, hb, ha, hp]
            exact he

/-- When the key is obtainable and every encrypted database entry
decrypts, get_databases returns the plaintext entries followed by the
decrypted ones, in order. -/
theorem getdbs_ok (hw : Hardware) (c : Crypto) (cfg cfg2 : Config)
    (k : List Nat) (i : Bool) (out : List Database)
    (hkey : cfg.get_encryption_key hw = .ok (k, cfg2, i))
    (hdec : decryptListDb c k cfg.encrypted_databases = some out) :
    cfg.get_databases hw c = .ok (cfg.databases ++ out) := by
  obtain ⟨⟨s, sl, ch, rest, hk2⟩, hdbs, hedbs, hc1, hc2⟩ := getKey_spec hw cfg cfg2 k i hkey
  unfold Config.get_databases
  cases hl : cfg.encrypted_databases with
  | nil =>
    rw [hl] at hdec
    simp only [decryptListDb, Option.some.injEq] at hdec
    subst hdec
    simp [Config.get_databases_go, Except.map]
  | cons ep rest2 =>
    rw [hl] at hdec
    simp only [decryptListDb] at hdec
    cases hp : decryptProfileDb c k ep with
    | none => rw [hp] at hdec; simp at hdec
    | some db =>
      rw [hp] at hdec
      cases hr : decryptListDb c k rest2 with
      | none => rw [hr] at hdec; simp at hdec
      | some out2 =>
        rw [hr] at hdec
        simp at hdec
        have hdecr := decrypt_after_key hw c cfg cfg2 k i ep.data ep.nonce hkey
        unfold decryptProfileDb at hp
        cases hb : c.b64decode ep.data with
        | none => simp [hb] at hp
        | some raw =>
          simp only [hb] at hp
          cases ha : c.aeadDecrypt k ep.nonce raw with
          | none => simp [ha] at hp
          | some json =>
            simp only [ha] at hp
            simp only [Config.get_databases_go, hdecr, hb, ha, hp]
            rw [go_db_keyed_ok hw c cfg2 s sl ch k rest hk2 rest2 out2
              (cfg.databases ++ [db]) hr, ← hdec]
            simp [Except.map]

/-- When the key is obtainable but some encrypted database entry fails
to decrypt, get_databases returns an error. -/
theorem getdbs_err (hw : Hardware) (c : Crypto) (cfg cfg2 : Config)
    (k : List Nat) (i : Bool)
    (hkey : cfg.get_encryption_key hw = .ok (k, cfg2, i))
    (hdec : decryptListDb c k cfg.encrypted_databases = none) :
    ∃ e, cfg.get_databases hw c = .error e := by
  obtain ⟨⟨s, sl, ch, rest, hk2⟩, hdbs, hedbs, hc1, hc2⟩ := getKey_spec hw cfg cfg2 k i hkey
  unfold Config.get_databases
  cases hl : cfg.encrypted_databases with
  | nil => rw [hl] at hdec; simp [decryptListDb] at hdec
  | cons ep rest2 =>
    rw [hl] at hdec
    have hdecr := decrypt_after_key hw c cfg cfg2 k i ep.data ep.nonce hkey
    cases hp : decryptProfileDb c k ep with
    | none =>
      unfold decryptProfileDb at hp
      cases hb : c.b64decode ep.data with
      | none =>
        refine ⟨"base64 decode error", ?_⟩
        simp [Config.get_databases_go, Except.map, hdecr, hb]
      | some raw =>
        simp only [hb] at hp
        cases ha : c.aeadDecrypt k ep.nonce raw with
        | none =>
          refine ⟨"Failed to decrypt database key", ?_⟩
          simp [Config.get_databases_go, Except.map, hdecr, hb, ha]
        | some json =>
          simp only [ha] at hp
          refine ⟨"json parse error", ?_⟩
          simp [Config.get_databases_go, Except.map, hdecr, hb, ha, hp]
    | some db =>
      simp only [decryptListDb, hp] at hdec
      cases hr : decryptListDb c k rest2 with
      | some out2 => rw [hr] at hdec; simp at hdec
      | none =>
        obtain ⟨e, he⟩ :=
          go_db_keyed_err hw c cfg2 s sl ch k rest hk2 rest2 (cfg.databases ++ [db]) hr
        refine ⟨e, ?_⟩
        unfold decryptProfileDb at hp
        cases hb : c.b64decode ep.data with
        | none => simp [hb] at hp
        | some raw =>
          simp only [hb] at hp
          cases ha : c.aeadDecrypt k ep.nonce raw with
          | none => simp [ha] at hp
          | some json =>
            simp only [ha] at hp
            simp [Config.get_databases_go, Except.map, hdecr, hb, ha, hp, he]

/-- On a key-cached configuration, if the pure decryption of the caller
list fails, the get_callers loop returns an error. -/
theorem go_caller_keyed_err (hw : Hardware) (c : Crypto) (cfg : Config)
    (s : Option Nat) (sl : Nat) (ch : String) (k : List Nat) (rest : List Encryption)
    (hkeyed : cfg.encryption = Encryption.challengeResponse s sl ch (some k) :: rest)
    (l : List EncryptedProfile) :
    ∀ (acc : List Caller), decryptListCaller c k l = none →
      ∃ e, Config.get_callers_go hw c cfg l acc = .error e := by
  induction l with
  | nil => intro acc hdec; simp [decryptListCaller] at hdec
  | cons ep rest' ih =>
    intro acc hdec
    have hkey := getKey_keyed hw cfg s sl ch k rest hkeyed
    have hdecr := decrypt_after_key hw c cfg cfg k false ep.data ep.nonce hkey
    cases hp : decryptProfileCaller c k ep with
    | none =>
      unfold decryptProfileCaller at hp
      cases hb : c.b64decode ep.data with
      | none =>
        refine ⟨"base64 decode error", ?_⟩
        simp only [Config.get_callers_go, hdecr, hb]
      | some raw =>
        simp only [hb] at hp
        cases ha : c.aeadDecrypt k ep.nonce raw with
        | none =>
          refine ⟨"Failed to decrypt database key", ?_⟩
          simp only [Config.get_callers_go, hdecr, hb, ha]
        | some json =>
          simp only [ha] at hp
          refine ⟨"json parse error", ?_⟩
          simp only [Config.get_callers_go, hdecr, hb, ha, hp]
    | some caller =>
      simp only [decryptListCaller, hp] at hdec
      cases hr : decryptListCaller c k rest' with
      | some out2 => rw [hr] at hdec; simp at hdec
      | none =>
        obtain ⟨e, he⟩ := ih (acc ++ [caller]) hr
        refine ⟨e, ?_⟩
        unfold decryptProfileCaller at hp
        cases hb : c.b64decode ep.data with
        | none => simp [hb] at hp
        | some raw =>
          simp only [hb] at hp
          cases ha : c.aeadDecrypt k ep.nonce raw with
          | none => simp [ha] at hp
          | some json =>
            simp only [ha] at hp
            simp only [Config.get_callers_go, hdecr, hb, ha, hp]
            exact he

/-- When the key is obtainable but some encrypted caller entry fails to
decrypt, get_callers returns an error. -/
theorem getcallers_err (hw : Hardware) (c : Crypto) (cfg cfg2 : Config)
    (k : List Nat) (i : Bool)
    (hkey : cfg.get_encryption_key hw = .ok (k, cfg2, i))
    (hdec : decryptListCaller c k cfg.encrypted_callers = none) :
    ∃ e, cfg.get_callers hw c = .error e := by
  obtain ⟨⟨s, sl, ch, rest, hk2⟩, hdbs, hedbs, hc1, hc2⟩ := getKey_spec hw cfg cfg2 k i hkey
  unfold Config.get_callers
  cases hl : cfg.encrypted_callers with
  | nil => rw [hl] at hdec; simp [decryptListCaller] at hdec
  | cons ep rest2 =>
    rw [hl] at hdec
    have hdecr := decrypt_after_key hw c cfg cfg2 k i ep.data ep.nonce hkey
    cases hp : decryptProfileCaller c k ep with
    | none =>
      unfold decryptProfileCaller at hp
      cases hb : c.b64decode ep.data with
      | none =>
        refine ⟨"base64 decode error", ?_⟩
        simp [Config.get_callers_go, Except.map, hdecr, hb]
      | some raw =>
        simp only [hb] at hp
        cases ha : c.aeadDecrypt k ep.nonce raw with
        | none =>
          refine ⟨"Failed to decrypt database key", ?_⟩
          simp [Config.get_callers_go, Except.map, hdecr, hb, ha]
        | some json =>
          simp only [ha] at hp
          refine ⟨"json parse error", ?_⟩
          simp [Config.get_callers_go, Except.map, hdecr, hb, ha, hp]
    | some caller =>
      simp only [decryptListCaller, hp] at hdec
      cases hr : decryptListCaller c k rest2 with
      | some out2 => rw [hr] at hdec; simp at hdec
      | none =>
        obtain ⟨e, he⟩ :=
          go_caller_keyed_err hw c cfg2 s sl ch k rest hk2 rest2 (cfg.callers ++ [caller]) hr
        refine ⟨e, ?_⟩
        unfold decryptProfileCaller at hp
        cases hb : c.b64decode ep.data with
        | none => simp [hb] at hp
        | some raw =>
          simp only [hb] at hp
          cases ha : c.aeadDecrypt k ep.nonce raw with
          | none => simp [ha] at hp
          | some json =>
            simp only [ha] at hp
            simp [Config.get_callers_go, Except.map, hdecr, hb, ha, hp, he]

/-- C6: the store workflow treats the set-login response's success flag
and error string together: it succeeds exactly when the flag is present
and true and the error string is absent, empty, or exactly "success";
success=true with any other non-empty error string is a failure; and a
response with no success flag at all is the request-failed error. -/
theorem C6_store_response_double_check (resp : SetLoginResponse) :
    (storeLoginResponseCheck resp = .ok () ↔
      resp.success = some true ∧
        (resp.error = none ∨ resp.error = some "" ∨ resp.error = some "success")) ∧
    (resp.success = none →
      storeLoginResponseCheck resp = .error "Set login request failed") := by
  obtain ⟨s, e, ec⟩ := resp
  constructor
  · cases s with
    | none => simp [storeLoginResponseCheck]
    | some b =>
      cases b with
      | false => cases e <;> simp [storeLoginResponseCheck]
      | true =>
        cases e with
        | none => simp [storeLoginResponseCheck]
        | some str =>
          by_cases h1 : str = ""
          · subst h1; simp [storeLoginResponseCheck]
          · by_cases h2 : str = "success"
            · subst h2; simp [storeLoginResponseCheck]
            · simp [storeLoginResponseCheck, h1, h2]
  · intro hs
    simp only at hs
    subst hs
    simp [storeLoginResponseCheck]

/-- Witness for C6: a response with no success flag fails with the
request-failed error. -/
theorem C6_store_response_double_check_witness :
    storeLoginResponseCheck ⟨none, none, none⟩ = .error "Set login request failed" :=
  (C6_store_response_double_check ⟨none, none, none⟩).2 rfl

/-- C7: with an empty encryption profile list, obtaining the at-rest key
(and hence decrypting any encrypted entry) fails with the distinct
"No encryption profile found" error, which differs from the
entry-not-found error of login retrieval and from the
authenticated-decryption failure error. -/
theorem C7_no_profile_distinct_error (hw : Hardware) (c : Crypto) (cfg : Config)
    (d : String) (n : List Nat) :
    (cfg.encryption = [] →
      cfg.get_encryption_key hw = .error "No encryption profile found") ∧
    (cfg.encryption = [] →
      cfg.base64_decrypt hw c d n = .error "No encryption profile found") ∧
    ("No encryption profile found" ≠ "No matching logins found") ∧
    ("No encryption profile found" ≠ "Failed to decrypt database key") := by
  refine ⟨?_, ?_, by decide, by decide⟩
  · intro h
    unfold Config.get_encryption_key
    rw [h]
  · intro h
    unfold Config.base64_decrypt Config.get_encryption_key
    rw [h]

/-- Witness for C7: a store with one encrypted entry and no profile
reports the key-unavailable error on decryption. -/
theorem C7_no_profile_distinct_error_witness :
    (⟨[], [⟨"ct", [1]⟩], [], [], []⟩ : Config).base64_decrypt wHardwareDead wCryptoId
      "ct" [1] = .error "No encryption profile found" :=
  (C7_no_profile_distinct_error wHardwareDead wCryptoId
    ⟨[], [⟨"ct", [1]⟩], [], [], []⟩ "ct" [1]).2.1 rfl

/-- C9: for a credential request without a url field, a request with
both protocol and host synthesizes protocol://host/path with the path
component empty when absent, and a request missing protocol or host
fails with an error instead of producing a URL. -/
theorem C9_url_synthesis (git_req : GitCredentialMessage) (p h : String) :
    (git_req.url = none → git_req.protocol = some p → git_req.host = some h →
      resolveUrl git_req = .ok (p ++ "://" ++ h ++ "/" ++ (git_req.path.getD ""))) ∧
    (git_req.url = none → (git_req.protocol = none ∨ git_req.host = none) →
      resolveUrl git_req =
        .error "Protocol and host are both required when URL is not provided") := by
  constructor
  · intro hu hp hh
    unfold resolveUrl
    rw [hu]
    simp [hp, hh]
  · intro hu hmiss
    unfold resolveUrl
    rw [hu]
    rcases hmiss with hm | hm <;> simp [hm]

/-- Witness for C9 at the spec's example: protocol https, host
example.com, path repo.git synthesizes https://example.com/repo.git. -/
theorem C9_url_synthesis_witness :
    resolveUrl ⟨none, some "https", some "example.com", some "repo.git", none, none⟩ =
      .ok "https://example.com/repo.git" :=
  (C9_url_synthesis ⟨none, some "https", some "example.com", some "repo.git", none, none⟩
    "https" "example.com").1 rfl rfl rfl

/-- C1: when the prior-match lookup reports no match (an error result,
per the spec a no-match lookup is the no-matching-login error), the
store workflow issues a set-login request with uuid None, causing
creation; when the lookup reports exactly one match and one database is
configured, it issues a set-login request whose uuid references that
match's identifier, causing an in-place update. -/
theorem C1_store_create_vs_update (config : Config) (url username password err : String)
    (db : Database) (rest : List Database) (entry : LoginEntry) :
    (config.databases = db :: rest →
      buildSetLoginRequest config url username password (.error err) =
        .req ⟨url, url, db.id, username, password, some db.group, some db.group_uuid,
          none⟩) ∧
    (config.databases = [db] →
      buildSetLoginRequest config url username password (.ok [entry]) =
        .req ⟨url, url, db.id, username, password, some db.group, some db.group_uuid,
          some entry.uuid⟩) := by
  constructor
  · intro h
    unfold buildSetLoginRequest
    rw [h]
  · intro h
    unfold buildSetLoginRequest
    rw [h]
    simp

/-- Witness for C1: with one configured database, a failed lookup yields
a creation request (uuid None) and a one-match lookup yields an update
request carrying the match's uuid. -/
theorem C1_store_create_vs_update_witness :
    buildSetLoginRequest wCfg1 "https://example.com/repo.git" "alice" "pw"
        (.error "no logins") =
      .req ⟨"https://example.com/repo.git", "https://example.com/repo.git", "db1",
        "alice", "pw", some "git", some "guid1", none⟩ ∧
    buildSetLoginRequest wCfg1 "https://example.com/repo.git" "alice" "pw"
        (.ok [wEntryOk]) =
      .req ⟨"https://example.com/repo.git", "https://example.com/repo.git", "db1",
        "alice", "pw", some "git", some "guid1", some "uuid-ok"⟩ :=
  ⟨(C1_store_create_vs_update wCfg1 "https://example.com/repo.git" "alice" "pw"
      "no logins" wDb [] wEntryOk).1 rfl,
   (C1_store_create_vs_update wCfg1 "https://example.com/repo.git" "alice" "pw"
      "no logins" wDb [] wEntryOk).2 rfl⟩

/-- C3: with more than one configured database, a write is not resolved
per entry: creating a new login deterministically targets the first
configured database, and updating an existing login is the explicit
unimplemented abort rather than a guess. -/
theorem C3_multi_database_write (config : Config) (url username password err : String)
    (db : Database) (rest : List Database) (entry : LoginEntry)
    (entries : List LoginEntry) :
    (config.databases = db :: rest →
      buildSetLoginRequest config url username password (.error err) =
        .req ⟨url, url, db.id, username, password, some db.group, some db.group_uuid,
          none⟩) ∧
    (config.databases.length > 1 →
      buildSetLoginRequest config url username password (.ok (entry :: entries)) =
        .unimplementedMultiDb) := by
  constructor
  · intro h
    unfold buildSetLoginRequest
    rw [h]
  · intro h
    unfold buildSetLoginRequest
    simp [h]

/-- Witness for C3: with two configured databases, creation targets the
first database and update aborts as unimplemented. -/
theorem C3_multi_database_write_witness :
    buildSetLoginRequest wCfg2 "u" "alice" "pw" (.error "no logins") =
      .req ⟨"u", "u", "db1", "alice", "pw", some "git", some "guid1", none⟩ ∧
    buildSetLoginRequest wCfg2 "u" "alice" "pw" (.ok [wEntryOk]) =
      .unimplementedMultiDb :=
  ⟨(C3_multi_database_write wCfg2 "u" "alice" "pw" "no logins" wDb [wDb2] wEntryOk []).1
      rfl,
   (C3_multi_database_write wCfg2 "u" "alice" "pw" "no logins" wDb [wDb2] wEntryOk []).2
      (by decide)⟩

/-- C2: every stored identity is tested with a request carrying its id
and permanent public key; an identity whose test errors or is
unconfirmed is excluded without aborting; the surviving confirmed subset
is returned and drives login retrieval; an empty surviving subset is the
no-valid-identities error. -/
theorem C2_test_associate_policy
    (send : TestAssociateRequest → Option TestAssociateResponse) (config : Config) :
    (∀ db : Database, db ∈ config.databases.filter (tasoPass send) ↔
      db ∈ config.databases ∧
        ∃ r, send ⟨db.id, db.pkey⟩ = some r ∧ r.success = some true) ∧
    (config.databases.filter (tasoPass send) = [] →
      associated_databases send config =
        .error "No valid database associations found in configuration file") ∧
    (∀ dbs, config.databases.filter (tasoPass send) = dbs → dbs ≠ [] →
      associated_databases send config = .ok dbs) ∧
    (∀ sendGl url dbs, associated_databases send config = .ok dbs →
      get_logins_for send sendGl config url =
        match sendGl ⟨url, dbs.map (fun d => (d.id, d.pkey))⟩ with
        | .error e => .error e
        | .ok resp => .ok (resp.entries.filter keepEntry)) := by
  have hchar : ∀ db : Database, tasoPass send db = true ↔
      ∃ r, send ⟨db.id, db.pkey⟩ = some r ∧ r.success = some true := by
    intro db
    unfold tasoPass
    cases hs : send ⟨db.id, db.pkey⟩ with
    | none => simp
    | some r =>
      cases hr : r.success with
      | none => simp [hr]
      | some b => cases b <;> simp [hr]
  refine ⟨?_, ?_, ?_, ?_⟩
  · intro db
    rw [List.mem_filter, hchar db]
  · intro h
    unfold associated_databases
    rw [h]
    simp
  · intro dbs hdbs hne
    unfold associated_databases
    rw [hdbs]
    cases dbs with
    | nil => exact absurd rfl hne
    | cons d ds => simp [List.isEmpty]
  · intro sendGl url dbs h
    unfold get_logins_for
    rw [h]

/-- Witness for C2 at the spec's scenario: three identities where the
test errors for the second; retrieval proceeds with exactly the two
confirmed ones and does not error. -/
theorem C2_test_associate_policy_witness :
    associated_databases wSend3 wCfg3 = .ok [wDb, wDb3] ∧
    get_logins_for wSend3 wSendGl wCfg3 "https://example.com" = .ok [wEntryOk] :=
  have h1 : associated_databases wSend3 wCfg3 = .ok [wDb, wDb3] :=
    (C2_test_associate_policy wSend3 wCfg3).2.2.1 [wDb, wDb3] rfl (by decide)
  ⟨h1, (C2_test_associate_policy wSend3 wCfg3).2.2.2 wSendGl "https://example.com"
    [wDb, wDb3] h1⟩

/-- C8: login retrieval drops every returned entry marked expired, keeps
entries with no marker (or an unset marker), and selection fails with
the no-matching-login error exactly when nothing remains after the
filter. -/
theorem C8_expired_filter_and_empty
    (sendTaso : TestAssociateRequest → Option TestAssociateResponse)
    (sendGl : GetLoginsRequest → Except String GetLoginsResponse)
    (config : Config) (url : String) (dbs : List Database) (resp : GetLoginsResponse)
    (hassoc : associated_databases sendTaso config = .ok dbs)
    (hsend : sendGl ⟨url, dbs.map (fun d => (d.id, d.pkey))⟩ = .ok resp) :
    get_logins_for sendTaso sendGl config url = .ok (resp.entries.filter keepEntry) ∧
    (∀ e ∈ resp.entries, e.expired = some true → e ∉ resp.entries.filter keepEntry) ∧
    (∀ e ∈ resp.entries, e.expired = none → e ∈ resp.entries.filter keepEntry) ∧
    (∀ e ∈ resp.entries, e.expired = some false → e ∈ resp.entries.filter keepEntry) ∧
    ((selectLogin (resp.entries.filter keepEntry) = .error "No matching logins found") ↔
      resp.entries.filter keepEntry = []) := by
  refine ⟨?_, ?_, ?_, ?_, ?_⟩
  · unfold get_logins_for
    rw [hassoc]
    simp only
    rw [hsend]
  · intro e he hexp
    simp [List.mem_filter, keepEntry, hexp]
  · intro e he hexp
    simp [List.mem_filter, keepEntry, hexp, he]
  · intro e he hexp
    simp [List.mem_filter, keepEntry, hexp, he]
  · cases hf : resp.entries.filter keepEntry with
    | nil => simp [selectLogin]
    | cons a l => simp [selectLogin]

/-- Witness for C8: a response holding one expired and one live entry
yields exactly the live entry. -/
theorem C8_expired_filter_and_empty_witness :
    get_logins_for wSendAll wSendGl wCfg1 "https://example.com" = .ok [wEntryOk] :=
  (C8_expired_filter_and_empty wSendAll wSendGl wCfg1 "https://example.com" [wDb]
    ⟨[wEntryExp, wEntryOk]⟩ rfl rfl).1

/-- C5: the hardware-derived at-rest key is computed at most once per
process: a populated cache is returned as-is with no hardware
interaction and no state change; an empty cache triggers one
challenge-response on the profile's fixed challenge and populates the
cache; a repeat call on the returned state is a pure cache hit; and the
serialization of the profile is independent of the cached response, so
the key never reaches the persisted store. -/
theorem C5_key_cached_once (hw : Hardware) (cfg cfg2 : Config) (serial : Option Nat)
    (slot : Nat) (challenge : String) (k : List Nat) (rest : List Encryption)
    (r : Option (List Nat)) (i : Bool) (dev : YubikeyDevice) (hmacResult : List Nat) :
    (cfg.encryption = Encryption.challengeResponse serial slot challenge (some k) :: rest →
      cfg.get_encryption_key hw = .ok (k, cfg, false)) ∧
    (cfg.encryption = Encryption.challengeResponse serial slot challenge none :: rest →
      hw.findYubikey = .ok dev →
      hw.challengeResponseHmac challenge (if slot == 1 then 1 else 2) = .ok hmacResult →
      cfg.get_encryption_key hw =
        .ok (spliceKey hmacResult,
          { cfg with encryption :=
              (Encryption.challengeResponse serial slot challenge
                (some (spliceKey hmacResult)) :: rest) },
          true)) ∧
    (cfg.get_encryption_key hw = .ok (k, cfg2, i) →
      cfg2.get_encryption_key hw = .ok (k, cfg2, false)) ∧
    (Encryption.serialize (Encryption.challengeResponse serial slot challenge r) =
      Encryption.serialize (Encryption.challengeResponse serial slot challenge none)) := by
  refine ⟨?_, ?_, ?_, rfl⟩
  · intro h
    exact getKey_keyed hw cfg serial slot challenge k rest h
  · intro h hfy hcr
    unfold Config.get_encryption_key
    rw [h]
    simp only
    rw [hfy]
    simp only
    rw [hcr]
  · intro h
    obtain ⟨⟨s2, sl2, ch2, rest2, hk2⟩, h1, h2, h3, h4⟩ := getKey_spec hw cfg cfg2 k i h
    exact getKey_keyed hw cfg2 s2 sl2 ch2 k rest2 hk2

/-- Witness for C5: a cache-empty profile derives the key through one
hardware challenge-response and caches it. -/
theorem C5_key_cached_once_witness :
    wCfgUncached.get_encryption_key wHardwareLive =
      .ok (List.replicate 20 7 ++ List.replicate 12 0,
        ⟨[], [], [], [],
          [Encryption.challengeResponse (some 5) 2 "abcd"
            (some (List.replicate 20 7 ++ List.replicate 12 0))]⟩,
        true) :=
  (C5_key_cached_once wHardwareLive wCfgUncached wCfgUncached (some 5) 2 "abcd" wKey []
    none true ⟨4176, 1031⟩ (List.replicate 20 7)).2.1 rfl rfl rfl

/-- Pure decryption distributes over list append: when both halves
decrypt, the whole decrypts to the concatenation. -/
theorem decryptListDb_append (c : Crypto) (k : List Nat) (l1 l2 : List EncryptedProfile)
    (o1 o2 : List Database) (h1 : decryptListDb c k l1 = some o1)
    (h2 : decryptListDb c k l2 = some o2) :
    decryptListDb c k (l1 ++ l2) = some (o1 ++ o2) := by
  induction l1 generalizing o1 with
  | nil =>
    simp only [decryptListDb, Option.some.injEq] at h1
    subst h1
    simpa using h2
  | cons ep rest ih =>
    simp only [decryptListDb] at h1
    simp only [List.cons_append, decryptListDb]
    cases hp : decryptProfileDb c k ep with
    | none => rw [hp] at h1; simp at h1
    | some db =>
      rw [hp] at h1
      cases hr : decryptListDb c k rest with
      | none => rw [hr] at h1; simp at h1
      | some o1x =>
        rw [hr] at h1
        simp at h1
        simp [ih o1x hr, ← h1]

/-- C4: round-trip of at-rest encryption: under an obtainable key and
the round-trip laws of the external AEAD, base64 and JSON primitives at
the record, add_database with encrypted=true followed by get_databases
returns the identical Database record, appended after the entries that
were already readable. -/
theorem C4_encrypted_roundtrip (hw : Hardware) (c : Crypto) (cfg cfg2 : Config)
    (db : Database) (nonce k : List Nat) (i : Bool) (ct : String)
    (out : List Database)
    (hkey : cfg.get_encryption_key hw = .ok (k, cfg2, i))
    (hjson : c.dbFromJson (c.dbToJson db) = some db)
    (henc : c.aeadEncrypt k nonce (c.dbToJson db) = some ct)
    (hb64 : c.b64decode (c.b64encode ct) = some ct)
    (hdec : c.aeadDecrypt k nonce ct = some (c.dbToJson db))
    (hold : decryptListDb c k cfg.encrypted_databases = some out) :
    ∃ cfg3, cfg.add_database hw c db true nonce = .ok cfg3 ∧
      cfg3.get_databases hw c = .ok (cfg.databases ++ out ++ [db]) := by
  obtain ⟨⟨s, sl, ch, rest, hk2⟩, hdbs, hedbs, hc1, hc2⟩ := getKey_spec hw cfg cfg2 k i hkey
  have hbe : cfg.base64_encrypt hw c (c.dbToJson db) nonce =
      .ok ((c.b64encode ct, nonce), cfg2) := by
    unfold Config.base64_encrypt
    rw [hkey]
    simp only
    rw [henc]
  have hadd : cfg.add_database hw c db true nonce =
      .ok { cfg2 with encrypted_databases :=
        cfg2.encrypted_databases ++ [⟨c.b64encode ct, nonce⟩] } := by
    unfold Config.add_database
    rw [if_pos rfl, hbe]
  refine ⟨_, hadd, ?_⟩
  have hnew : decryptListDb c k [⟨c.b64encode ct, nonce⟩] = some [db] := by
    simp [decryptListDb, decryptProfileDb, hb64, hdec, hjson]
  have hk3 : ({ cfg2 with encrypted_databases :=
      cfg2.encrypted_databases ++ [⟨c.b64encode ct, nonce⟩] } : Config).get_encryption_key
        hw =
      .ok (k, { cfg2 with encrypted_databases :=
        cfg2.encrypted_databases ++ [⟨c.b64encode ct, nonce⟩] }, false) :=
    getKey_keyed hw _ s sl ch k rest hk2
  have hdl : decryptListDb c k
      (cfg2.encrypted_databases ++ [⟨c.b64encode ct, nonce⟩]) = some (out ++ [db]) := by
    rw [hedbs]
    exact decryptListDb_append c k _ _ _ _ hold hnew
  have hfinal := getdbs_ok hw c _ _ k false (out ++ [db]) hk3 hdl
  rw [hfinal]
  have hd3 : ({ cfg2 with encrypted_databases :=
      cfg2.encrypted_databases ++ [⟨c.b64encode ct, nonce⟩] } : Config).databases =
      cfg.databases := hdbs
  rw [hd3, List.append_assoc]

/-- Witness for C4: a concrete store with a cached key, the identity
crypto oracle and one record round-trips. -/
theorem C4_encrypted_roundtrip_witness :
    ∃ cfg3, wCfgKeyed.add_database wHardwareDead wCryptoId wDb true [9, 9] = .ok cfg3 ∧
      cfg3.get_databases wHardwareDead wCryptoId = .ok [wDb] :=
  C4_encrypted_roundtrip wHardwareDead wCryptoId wCfgKeyed wCfgKeyed wDb [9, 9] wKey
    false "dbjson" [] rfl rfl rfl rfl rfl rfl

/-- One failing member makes the pure decryption of the whole database
list fail. -/
theorem decryptListDb_none_of_mem (c : Crypto) (k : List Nat)
    (l : List EncryptedProfile) (p : EncryptedProfile) (hmem : p ∈ l)
    (hfail : decryptProfileDb c k p = none) : decryptListDb c k l = none := by
  induction l with
  | nil => cases hmem
  | cons ep rest ih =>
    rcases List.mem_cons.mp hmem with h | h
    · subst h; simp [decryptListDb, hfail]
    · simp only [decryptListDb]
      cases hp : decryptProfileDb c k ep with
      | none => rfl
      | some db => simp [ih h]

/-- One failing member makes the pure decryption of the whole caller
list fail. -/
theorem decryptListCaller_none_of_mem (c : Crypto) (k : List Nat)
    (l : List EncryptedProfile) (p : EncryptedProfile) (hmem : p ∈ l)
    (hfail : decryptProfileCaller c k p = none) : decryptListCaller c k l = none := by
  induction l with
  | nil => cases hmem
  | cons ep rest ih =>
    rcases List.mem_cons.mp hmem with h | h
    · subst h; simp [decryptListCaller, hfail]
    · simp only [decryptListCaller]
      cases hp : decryptProfileCaller c k ep with
      | none => rfl
      | some caller => simp [ih h]

/-- C10: reading the store's entries is all-or-nothing: when any single
encrypted database or caller entry fails to decrypt under the
obtainable key, the corresponding read returns an error and yields no
entries at all, and encrypted entries with no configured profile also
produce an error rather than a partial plaintext list. -/
theorem C10_all_or_nothing (hw : Hardware) (c : Crypto) (cfg cfg2 : Config)
    (k : List Nat) (i : Bool) (ep : EncryptedProfile) (rest : List EncryptedProfile) :
    (cfg.get_encryption_key hw = .ok (k, cfg2, i) →
      (∃ p ∈ cfg.encrypted_databases, decryptProfileDb c k p = none) →
      ∃ e, cfg.get_databases hw c = .error e) ∧
    (cfg.get_encryption_key hw = .ok (k, cfg2, i) →
      (∃ p ∈ cfg.encrypted_callers, decryptProfileCaller c k p = none) →
      ∃ e, cfg.get_callers hw c = .error e) ∧
    (cfg.encryption = [] → cfg.encrypted_databases = ep :: rest →
      ∃ e, cfg.get_databases hw c = .error e) := by
  refine ⟨?_, ?_, ?_⟩
  · rintro hkey ⟨p, hmem, hfail⟩
    exact getdbs_err hw c cfg cfg2 k i hkey (decryptListDb_none_of_mem c k _ p hmem hfail)
  · rintro hkey ⟨p, hmem, hfail⟩
    exact getcallers_err hw c cfg cfg2 k i hkey
      (decryptListCaller_none_of_mem c k _ p hmem hfail)
  · intro hE hl
    refine ⟨"No encryption profile found", ?_⟩
    unfold Config.get_databases
    rw [hl]
    simp [Config.get_databases_go, Config.base64_decrypt, Config.get_encryption_key, hE,
      Except.map]

/-- Witness for C10: a store with one undecryptable database entry and
one undecryptable caller entry yields errors from both reads. -/
theorem C10_all_or_nothing_witness :
    (∃ e, wCfgEnc.get_databases wHardwareDead wCryptoBad = .error e) ∧
    (∃ e, wCfgEnc.get_callers wHardwareDead wCryptoBad = .error e) :=
  ⟨(C10_all_or_nothing wHardwareDead wCryptoBad wCfgEnc wCfgEnc wKey false
      ⟨"ct", [1, 2]⟩ []).1 rfl ⟨⟨"ct", [1, 2]⟩, by decide, rfl⟩,
   (C10_all_or_nothing wHardwareDead wCryptoBad wCfgEnc wCfgEnc wKey false
      ⟨"ct", [1, 2]⟩ []).2.1 rfl ⟨⟨"ct2", [3]⟩, by decide, rfl⟩⟩

end GCK
